import Mathlib

/-
  Verification of the SafeList container (src/safelist.h).

  SafeList<T> wraps std::list<T> behind a recursive mutex.  We embed the
  sequential (under-the-lock) semantics of each public operation as a pure
  function on the list of items, and embed the locking discipline of each
  operation body as a trace of lock / unlock / items-access events read off
  the source line by line.
-/

/-- State of a SafeList<T>: the underlying std::list<T> contents, front first. -/
structure SafeList (T : Type) where
  items : List T

/-- SafeList<T>::empty (src/safelist.h lines 241-245): the body is a single
    `return list<T>::empty();` with no Lock/Unlock around it. -/
def SafeList.empty {T : Type} (s : SafeList T) : Bool :=
  s.items.isEmpty

/-- SafeList<T>::push_back (lines 263-269): Lock, `list<T>::push_back(arg)`
    appends arg at the back, Unlock. -/
def SafeList.push_back {T : Type} (s : SafeList T) (arg : T) : SafeList T :=
  SafeList.mk (s.items ++ [arg])

/-- SafeList<T>::size (lines 271-279): Lock, read `list<T>::size()`, Unlock. -/
def SafeList.size {T : Type} (s : SafeList T) : Nat :=
  s.items.length

/-- SafeList<T>::pop_front (lines 247-261):
    `T ret_val = NULL;` initialises the return value to the zero/default value
    of T (modelled as `default`); then under the lock, if the list is not
    empty, the front element is read into ret_val and erased; ret_val is
    returned in both cases.  Returns the value together with the new state. -/
def SafeList.pop_front {T : Type} [Inhabited T] (s : SafeList T) : T × SafeList T :=
  match s.items with
  | [] => (default, s)
  | x :: xs => (x, SafeList.mk xs)

/-- The element-wise loop of `std::list<T>::remove(t)` called by
    SafeList<T>::remove (line 285): traverse the whole list and erase every
    element equal to t, keeping the others in place. -/
def removeAll {T : Type} [DecidableEq T] (v : T) : List T → List T
  | [] => []
  | x :: xs => if x = v then removeAll v xs else x :: removeAll v xs

/-- SafeList<T>::remove (lines 281-287): Lock, `list<T>::remove(t)`, Unlock. -/
def SafeList.remove {T : Type} [DecidableEq T] (s : SafeList T) (v : T) : SafeList T :=
  SafeList.mk (removeAll v s.items)

/-- The iterator loop of SafeList<T>::visit_all (lines 50-54): walk the list
    from begin() to end(), call the visitor on each element, and break as soon
    as the visitor returns false.  Returns the list of elements the visitor
    was invoked on, in invocation order. -/
def visitGo {T : Type} (f : T → Bool) : List T → List T
  | [] => []
  | x :: xs => if f x then x :: visitGo f xs else [x]

/-- SafeList<T>::visit_all (lines 47-56): Lock, run the iterator loop (which
    only reads `*itr` and never calls a mutating member), Unlock.  Returns the
    invocation trace of the visitor together with the (unchanged) state. -/
def SafeList.visit_all {T : Type} (s : SafeList T) (f : T → Bool) : List T × SafeList T :=
  (visitGo f s.items, s)

/-- States of SafeList<Int> reachable from a freshly constructed (empty)
    container through the public operations. -/
inductive SafeListReachable : SafeList Int → Prop
  | init : SafeListReachable (SafeList.mk [])
  | push (s : SafeList Int) (v : Int) :
      SafeListReachable s → SafeListReachable (s.push_back v)
  | pop (s : SafeList Int) :
      SafeListReachable s → SafeListReachable (s.pop_front).2
  | rem (s : SafeList Int) (v : Int) :
      SafeListReachable s → SafeListReachable (s.remove v)
  | visit (s : SafeList Int) (f : Int → Bool) :
      SafeListReachable s → SafeListReachable (s.visit_all f).2

/- Locking discipline: the body of each public operation, read as a trace of
   events.  `acq` is a call to Lock() (recursive mutex: increments the hold
   count of the calling thread), `rel` a call to Unlock(), `access` a read or
   mutation of the underlying list<T> contents. -/

/-- One step of a public operation body: acquire the recursive mutex, release
    it, or touch the underlying list. -/
inductive LockEvent
  | acq
  | rel
  | access
deriving DecidableEq

/-- Trace of SafeList<T>::empty (lines 241-245): the body is just
    `return list<T>::empty();` - one read of the items with no locking. -/
def emptyTrace : List LockEvent :=
  [LockEvent.access]

/-- Trace of SafeList<T>::push_back (lines 263-269): Lock(); append; Unlock(). -/
def pushBackTrace : List LockEvent :=
  [LockEvent.acq, LockEvent.access, LockEvent.rel]

/-- Trace of SafeList<T>::size (lines 271-279): Lock(); read size; Unlock(). -/
def sizeTrace : List LockEvent :=
  [LockEvent.acq, LockEvent.access, LockEvent.rel]

/-- Trace of SafeList<T>::remove (lines 281-287): Lock(); remove; Unlock(). -/
def removeTrace : List LockEvent :=
  [LockEvent.acq, LockEvent.access, LockEvent.rel]

/-- Trace of SafeList<T>::pop_front (lines 247-261) when the list is nonempty:
    Lock(); this->empty() reads the items; the private begin() does
    Lock(); read; Unlock(); then ret_val = *itr reads and list<T>::erase(itr)
    mutates; Unlock(). -/
def popFrontTraceNonempty : List LockEvent :=
  [LockEvent.acq, LockEvent.access,
   LockEvent.acq, LockEvent.access, LockEvent.rel,
   LockEvent.access, LockEvent.access, LockEvent.rel]

/-- Trace of SafeList<T>::pop_front when the list is empty: Lock(); the
    this->empty() read; Unlock(). -/
def popFrontTraceEmpty : List LockEvent :=
  [LockEvent.acq, LockEvent.access, LockEvent.rel]

/-- Trace of SafeList<T>::visit_all (lines 47-56) on a list of n elements:
    Lock(), n reads, Unlock(). -/
def visitAllTrace (n : Nat) : List LockEvent :=
  LockEvent.acq :: (List.replicate n LockEvent.access ++ [LockEvent.rel])

/-- Checks that every `access` event in the trace happens while the recursive
    mutex hold count of the calling thread is positive.  The first argument is
    the hold count on entry. -/
def accessesLocked : Nat → List LockEvent → Bool
  | _, [] => true
  | n, LockEvent.acq :: es => accessesLocked (n + 1) es
  | n, LockEvent.rel :: es => accessesLocked (n - 1) es
  | n, LockEvent.access :: es => decide (0 < n) && accessesLocked n es

/- ------------------------------------------------------------------ -/
/- Claims                                                              -/
/- ------------------------------------------------------------------ -/

/-- Claim C1 (code_bug evidence): popping from an empty SafeList<int> returns
    the sentinel `T ret_val = NULL`, i.e. the value 0, which is exactly the
    value returned by popping a list that genuinely stores 0: the empty pop is
    not distinguishable from a present element equal to the default value of
    the type, so pop_front does signal emptiness by a default-constructed
    sentinel value. -/
theorem pop_front_empty_returns_default_sentinel :
    ((SafeList.mk ([] : List Int)).pop_front).1 = 0 ∧
    ((SafeList.mk ([0] : List Int)).pop_front).1 = 0 ∧
    ((SafeList.mk ([] : List Int)).pop_front).1
      = ((SafeList.mk ([0] : List Int)).pop_front).1 := by
  exact ⟨rfl, rfl, rfl⟩

/-- Claim C2 (code_bug evidence): the body of SafeList<T>::empty reads the
    underlying list with the mutex hold count still 0 - it never calls
    Lock() - so the claimed invariant that no operation reads the items with
    the lock not held fails at is_empty, even though it holds for push_back,
    size, remove, pop_front and visit_all. -/
theorem empty_reads_items_without_lock :
    accessesLocked 0 emptyTrace = false ∧
    accessesLocked 0 pushBackTrace = true ∧
    accessesLocked 0 sizeTrace = true ∧
    accessesLocked 0 removeTrace = true ∧
    accessesLocked 0 popFrontTraceNonempty = true ∧
    accessesLocked 0 popFrontTraceEmpty = true ∧
    accessesLocked 0 (visitAllTrace 4) = true := by
  decide

/-- Claim C3: the container is FIFO: starting from an empty SafeList, three
    push_back calls with a, b, c followed by three pop_front calls yield
    a, b, c in that order and leave the container empty. -/
theorem push3_pop3_fifo (T : Type) [Inhabited T] (a b c : T) :
    (((((SafeList.mk ([] : List T)).push_back a).push_back b).push_back
        c).pop_front).1 = a ∧
    ((((((SafeList.mk ([] : List T)).push_back a).push_back b).push_back
        c).pop_front).2.pop_front).1 = b ∧
    (((((((SafeList.mk ([] : List T)).push_back a).push_back b).push_back
        c).pop_front).2.pop_front).2.pop_front).1 = c ∧
    (((((((SafeList.mk ([] : List T)).push_back a).push_back b).push_back
        c).pop_front).2.pop_front).2.pop_front).2.items = [] := by
  exact ⟨rfl, rfl, rfl, rfl⟩

/-- Claim C3 witness: the FIFO property at the concrete values 1, 2, 3. -/
theorem push3_pop3_fifo_at_123 :
    (((((SafeList.mk ([] : List Int)).push_back 1).push_back 2).push_back
        3).pop_front).1 = 1 ∧
    ((((((SafeList.mk ([] : List Int)).push_back 1).push_back 2).push_back
        3).pop_front).2.pop_front).1 = 2 ∧
    (((((((SafeList.mk ([] : List Int)).push_back 1).push_back 2).push_back
        3).pop_front).2.pop_front).2.pop_front).1 = 3 ∧
    (((((((SafeList.mk ([] : List Int)).push_back 1).push_back 2).push_back
        3).pop_front).2.pop_front).2.pop_front).2.items = [] :=
  push3_pop3_fifo Int 1 2 3

/-- Helper: removeAll leaves no occurrence of the removed value. -/
theorem removeAll_count_self {T : Type} [DecidableEq T] (v : T) (l : List T) :
    (removeAll v l).count v = 0 := by
  induction l with
  | nil => rfl
  | cons x xs ih =>
    by_cases hx : x = v
    · simp [removeAll, hx, ih]
    · simp [removeAll, hx, List.count_cons, ih]

/-- Claim C4: remove deletes every element equal to v, not just the first
    match: no occurrence of v survives in any list, and on the contents
    [1,2,1,3,1] removing 1 leaves exactly [2,3]. -/
theorem remove_deletes_all_matches :
    (∀ (l : List Int) (v : Int),
        (((SafeList.mk l).remove v).items).count v = 0) ∧
    ((SafeList.mk [1, 2, 1, 3, 1]).remove 1).items = [2, 3] := by
  refine ⟨?_, by decide⟩
  intro l v
  exact removeAll_count_self v l

/-- Helper: the visitor loop observes exactly the longest true-valued front
    segment, plus the single element on which the visitor returned false, if
    any. -/
theorem visitGo_eq_takeWhile {T : Type} (f : T → Bool) (l : List T) :
    visitGo f l = l.takeWhile f ++ (l.dropWhile f).take 1 := by
  induction l with
  | nil => rfl
  | cons x xs ih =>
    by_cases hx : f x = true
    · simp [visitGo, hx, List.takeWhile_cons, List.dropWhile_cons, ih]
    · simp only [Bool.not_eq_true] at hx
      simp [visitGo, hx, List.takeWhile_cons, List.dropWhile_cons]

/-- Claim C5: visit_all walks the list front to back in order and stops as
    soon as the visitor returns false: in general the invocation trace is the
    true-valued front segment followed by the first false-valued element, and
    on [1,2,3,4] with a visitor that returns false upon seeing 2 the visitor
    observes exactly [1, 2]. -/
theorem visit_all_front_to_back_early_stop :
    (∀ (l : List Int) (f : Int → Bool),
        ((SafeList.mk l).visit_all f).1
          = l.takeWhile f ++ (l.dropWhile f).take 1) ∧
    ((SafeList.mk [1, 2, 3, 4]).visit_all (fun x => decide (x ≠ 2))).1
      = [1, 2] := by
  refine ⟨?_, by decide⟩
  intro l f
  exact visitGo_eq_takeWhile f l

/-- Claim C6: on every reachable state of the container, empty() returns true
    exactly when size() returns 0. -/
theorem empty_iff_size_zero (s : SafeList Int) (h : SafeListReachable s) :
    s.empty = true ↔ s.size = 0 := by
  cases s with
  | mk l =>
    cases l with
    | nil => simp [SafeList.empty, SafeList.size]
    | cons x xs => simp [SafeList.empty, SafeList.size]

/-- Claim C6 witness: the equivalence at the freshly constructed container. -/
theorem empty_iff_size_zero_at_init :
    (SafeList.mk ([] : List Int)).empty = true
      ↔ (SafeList.mk ([] : List Int)).size = 0 :=
  empty_iff_size_zero (SafeList.mk []) SafeListReachable.init

/-- Helper: removeAll is the identity when the value occurs nowhere. -/
theorem removeAll_of_not_mem {T : Type} [DecidableEq T] (v : T) (l : List T)
    (h : v ∉ l) : removeAll v l = l := by
  induction l with
  | nil => rfl
  | cons x xs ih =>
    simp only [List.mem_cons, not_or] at h
    have hx : ¬ x = v := fun hxv => h.1 hxv.symm
    simp [removeAll, hx, ih h.2]

/-- Claim C7: when v equals no element of the contents, remove(v) is a no-op:
    the contents are left exactly unchanged. -/
theorem remove_no_match_noop (l : List Int) (v : Int) (h : v ∉ l) :
    ((SafeList.mk l).remove v).items = l :=
  removeAll_of_not_mem v l h

/-- Claim C7 witness: removing 1 from [2,3], where it does not occur, changes
    nothing. -/
theorem remove_no_match_noop_at_23 :
    ((SafeList.mk ([2, 3] : List Int)).remove 1).items = [2, 3] :=
  remove_no_match_noop [2, 3] 1 (by decide)

/-- Claim C8: popping from an empty container leaves the state exactly
    unchanged - the empty branch of pop_front performs no mutation. -/
theorem pop_front_empty_state_unchanged (s : SafeList Int)
    (h : s.empty = true) : (s.pop_front).2 = s := by
  cases s with
  | mk l =>
    cases l with
    | nil => rfl
    | cons x xs => simp [SafeList.empty, List.isEmpty] at h

/-- Claim C8 witness: popping the freshly constructed empty container leaves
    it unchanged. -/
theorem pop_front_empty_state_unchanged_at_init :
    ((SafeList.mk ([] : List Int)).pop_front).2 = SafeList.mk [] :=
  pop_front_empty_state_unchanged (SafeList.mk []) (by decide)

/-- Helper: removeAll is exactly the order-preserving filter that drops the
    elements equal to the removed value. -/
theorem removeAll_eq_filter {T : Type} [DecidableEq T] (v : T) (l : List T) :
    removeAll v l = l.filter (fun x => decide (x ≠ v)) := by
  induction l with
  | nil => rfl
  | cons x xs ih =>
    by_cases hx : x = v
    · simp [removeAll, hx, ih]
    · simp [removeAll, hx, ih]

/-- Claim C9: remove preserves the relative order of the surviving elements:
    the resulting contents equal the original contents filtered to drop the
    elements equal to v, survivors in their original order. -/
theorem remove_eq_ordered_filter (l : List Int) (v : Int) :
    ((SafeList.mk l).remove v).items = l.filter (fun x => decide (x ≠ v)) :=
  removeAll_eq_filter v l

/-- Claim C9 witness: the filter characterisation at [1,2,1,3,1] and v = 1. -/
theorem remove_eq_ordered_filter_at_12131 :
    ((SafeList.mk [1, 2, 1, 3, 1]).remove 1).items
      = [1, 2, 1, 3, 1].filter (fun x => decide (x ≠ (1 : Int))) :=
  remove_eq_ordered_filter [1, 2, 1, 3, 1] 1

/-- Claim C10: visit_all never mutates the contents: for every visitor -
    including one that stops early and on the empty container - the state
    after the call equals the state before, since the loop body only reads
    each element. -/
theorem visit_all_state_unchanged (s : SafeList Int) (f : Int → Bool) :
    ((s.visit_all f).2) = s :=
  rfl

/-- Claim C10 witness: the frame property at a concrete state and an
    early-stopping visitor. -/
theorem visit_all_state_unchanged_at_1234 :
    (((SafeList.mk ([1, 2, 3, 4] : List Int)).visit_all
        (fun x => decide (x ≠ 2))).2)
      = SafeList.mk [1, 2, 3, 4] :=
  visit_all_state_unchanged (SafeList.mk [1, 2, 3, 4]) (fun x => decide (x ≠ 2))
